import Mathlib

/-!
Shallow embedding of the validation-rule inference engine of the
`outbound` VS Code extension (files `src/modules/routes/parser.ts` and
`src/modules/api/request.ts`), together with theorems checking the
specification's claims about it.

JavaScript strings are modelled as `List Char`; JavaScript objects used
as ordered string-keyed maps are modelled as association lists that
preserve first-insertion order.

The source's index-advancing `while` loops and `regex.exec` scans are
embedded as structurally recursive functions over an explicit iteration
budget (`fuel`). Every loop advances its index by at least one per
iteration and stops once the index passes the end of the text, so a budget
of the text's length makes the budget-exhausted branch unreachable; that
branch is written to return exactly what the loop's normal exit returns,
so the embedding equals the loop for every input. Structural recursion
keeps every definition computable by `rfl`/`decide`.
-/

set_option maxRecDepth 40000

namespace Outbound

/-- JavaScript source text, modelled as a list of characters. -/
abbrev JText := List Char

/-- JavaScript `\s` character class (ASCII part, which is all the source exercises). -/
def isJsSpace (c : Char) : Bool :=
  [' ', '\t', '\n', '\r', '\x0b', '\x0c'].contains c

/-- JavaScript `\w` character class: `[A-Za-z0-9_]`. -/
def isWordChar (c : Char) : Bool :=
  c.isAlphanum || c == '_'

/-- JavaScript `String.prototype.trim` on our character-list model. -/
def jsTrim (s : JText) : JText :=
  ((s.dropWhile (fun c => isJsSpace c)).reverse.dropWhile (fun c => isJsSpace c)).reverse

/-- JavaScript `String.prototype.split` with a single-character separator
(splitting `""` yields `[""]`, and separators at the ends yield empty
pieces, as in JavaScript). -/
def splitOnCharGo (c : Char) : JText → JText → List String
  | [], acc => [acc.reverse.asString]
  | x :: rest, acc =>
    if x = c then acc.reverse.asString :: splitOnCharGo c rest []
    else splitOnCharGo c rest (x :: acc)

def splitOnChar (c : Char) (s : JText) : List String :=
  splitOnCharGo c s []

/-- JavaScript `String.prototype.startsWith`. -/
def jsStartsWith (s pre : String) : Bool :=
  decide (s.toList.take pre.toList.length = pre.toList)

/-- JavaScript `String.prototype.toUpperCase` (ASCII). -/
def jsToUpper (s : String) : String :=
  (s.toList.map Char.toUpper).asString

/-- Effect of `.replace(/^['"]|['"]$/g, '')`: remove one leading and one
trailing single/double quote. -/
def stripEdgeQuotes (s : JText) : JText :=
  let s1 := match s with
    | c :: rest => if c = '\'' ∨ c = '"' then rest else s
    | [] => []
  match s1.getLast? with
  | some c => if c = '\'' ∨ c = '"' then s1.dropLast else s1
  | none => s1

/-- The semantic parameter types of `src/types/routes.ts` (`ParamType`). -/
inductive ParamType where
  | string | integer | number | boolean | array | object | file | date | email | url | uuid
deriving DecidableEq, Repr

/-- JSON-like runtime values, used for default values and request bodies.
All numeric defaults in the source are integral, so numbers are `Int`
(in JavaScript `0.0 === 0` and `1.0 === 1`). -/
inductive JsonVal where
  | nullV
  | boolV (b : Bool)
  | numV (n : Int)
  | strV (s : String)
  | arrV (xs : List JsonVal)
  | objV (fields : List (String × JsonVal))
deriving Repr

/-- `r.split(':')[0].toLowerCase()`: the rule name before any `:` argument. -/
def ruleName (r : String) : String :=
  ((r.toList.takeWhile (fun c => c ≠ ':')).map Char.toLower).asString

/-- Membership in the `ruleSet` built by `inferTypeFromRules`
(`new Set(rules.map(r => r.split(':')[0].toLowerCase()))`). -/
def ruleSetHas (rules : List String) (t : String) : Bool :=
  rules.any (fun r => ruleName r == t)

/-- `RouteParser.inferTypeFromRules` (parser.ts lines 604-639), including the
verbatim first condition `integer || numeric && integer`. -/
def inferTypeFromRules (rules : List String) : ParamType :=
  if ruleSetHas rules "integer" || (ruleSetHas rules "numeric" && ruleSetHas rules "integer") then
    .integer
  else if ruleSetHas rules "numeric" || ruleSetHas rules "decimal" then
    .number
  else if ruleSetHas rules "boolean" || ruleSetHas rules "bool" then
    .boolean
  else if ruleSetHas rules "array" then
    .array
  else if ruleSetHas rules "file" || ruleSetHas rules "image" || ruleSetHas rules "mimes" || ruleSetHas rules "mimetypes" then
    .file
  else if ruleSetHas rules "date" || ruleSetHas rules "date_format" || ruleSetHas rules "after" || ruleSetHas rules "before" then
    .date
  else if ruleSetHas rules "email" then
    .email
  else if ruleSetHas rules "url" || ruleSetHas rules "active_url" then
    .url
  else if ruleSetHas rules "uuid" then
    .uuid
  else if ruleSetHas rules "json" then
    .object
  else
    .string

/-- `RouteParser.extractEnumValues` (parser.ts lines 644-650). -/
def extractEnumValues (rules : List String) : Option (List String) :=
  match rules.find? (fun r => jsStartsWith r "in:") with
  | some inRule => some ((splitOnChar ',' (inRule.drop 3).toList).map (fun v => (jsTrim v.toList).asString))
  | none => none

/-- The `while` loop of `RouteParser.extractBracketedContent` (parser.ts lines
400-408): plain bracket counting, with no awareness of quoted strings.
Returns the final `(bracketCount, index)`. -/
def bracketScanGo (content : JText) : Nat → Nat → Nat → Nat × Nat
  | 0, bracketCount, index => (bracketCount, index)
  | Nat.succ fuel, bracketCount, index =>
    if h : 0 < bracketCount ∧ index < content.length then
      let char := content.get ⟨index, h.2⟩
      let bc := if char = '[' then bracketCount + 1
                else if char = ']' then bracketCount - 1
                else bracketCount
      bracketScanGo content fuel bc (index + 1)
    else (bracketCount, index)

def bracketScanLoop (content : JText) (bracketCount index : Nat) : Nat × Nat :=
  bracketScanGo content content.length bracketCount index

/-- `RouteParser.extractBracketedContent` (parser.ts lines 392-416). -/
def extractBracketedContent (content : JText) (startIndex : Nat) : Option JText :=
  if content.get? startIndex ≠ some '[' then none
  else
    let r := bracketScanLoop content 1 (startIndex + 1)
    if r.1 = 0 then some ((content.take (r.2 - 1)).drop (startIndex + 1)) else none

/-- The brace-counting `while` loop shared by both branches of
`RouteParser.extractMethodContent` (parser.ts lines 206-214 and 224-232). -/
def braceScanGo (content : JText) : Nat → Nat → Nat → Nat × Nat
  | 0, braceCount, index => (braceCount, index)
  | Nat.succ fuel, braceCount, index =>
    if h : 0 < braceCount ∧ index < content.length then
      let char := content.get ⟨index, h.2⟩
      let bc := if char = '{' then braceCount + 1
                else if char = '}' then braceCount - 1
                else braceCount
      braceScanGo content fuel bc (index + 1)
    else (braceCount, index)

def braceScanLoop (content : JText) (braceCount index : Nat) : Nat × Nat :=
  braceScanGo content content.length braceCount index

/-- One step of `RouteParser.parseRulesList`'s character loop (parser.ts lines
479-512), followed by the final-token push (lines 515-518). -/
def parseRulesListGo (content : JText) :
    Nat → Nat → JText → Int → Int → Bool → Char → List String → List String
  | 0, _, current, _, _, _, _, rules =>
    let trimmed := stripEdgeQuotes (jsTrim current)
    if trimmed ≠ [] then rules ++ [trimmed.asString] else rules
  | Nat.succ fuel, i, current, bracketDepth, parenDepth, inString, stringChar, rules =>
    if h : i < content.length then
      let char := content.get ⟨i, h⟩
      if inString then
        -- `content[i - 1] !== '\\'` (JavaScript `content[-1]` is `undefined`)
        let prevNotBackslash := if i = 0 then true else decide (content.get? (i - 1) ≠ some '\\')
        let inString' := if char = stringChar ∧ prevNotBackslash then false else true
        parseRulesListGo content fuel (i + 1) (current ++ [char]) bracketDepth parenDepth inString' stringChar rules
      else if char = '"' ∨ char = '\'' then
        parseRulesListGo content fuel (i + 1) (current ++ [char]) bracketDepth parenDepth true char rules
      else if char = '[' then
        parseRulesListGo content fuel (i + 1) (current ++ [char]) (bracketDepth + 1) parenDepth false stringChar rules
      else if char = ']' then
        parseRulesListGo content fuel (i + 1) (current ++ [char]) (bracketDepth - 1) parenDepth false stringChar rules
      else if char = '(' then
        parseRulesListGo content fuel (i + 1) (current ++ [char]) bracketDepth (parenDepth + 1) false stringChar rules
      else if char = ')' then
        parseRulesListGo content fuel (i + 1) (current ++ [char]) bracketDepth (parenDepth - 1) false stringChar rules
      else if char = ',' ∧ bracketDepth = 0 ∧ parenDepth = 0 then
        let trimmed := stripEdgeQuotes (jsTrim current)
        let rules' := if trimmed ≠ [] then rules ++ [trimmed.asString] else rules
        parseRulesListGo content fuel (i + 1) [] bracketDepth parenDepth false stringChar rules'
      else
        parseRulesListGo content fuel (i + 1) (current ++ [char]) bracketDepth parenDepth false stringChar rules
    else
      let trimmed := stripEdgeQuotes (jsTrim current)
      if trimmed ≠ [] then rules ++ [trimmed.asString] else rules

/-- `RouteParser.parseRulesList` (parser.ts lines 471-521). -/
def parseRulesList (content : JText) : List String :=
  parseRulesListGo content content.length 0 [] 0 0 false ' ' []

/-- The `RouteRequestParam` interface of `src/types/routes.ts`. Optional
fields are `Option`s (`none` = the field is absent / `undefined`). -/
inductive RouteRequestParam where
  | mk (name : String) (type : ParamType) (required : Bool) (rules : List String)
      (isPathParam : Bool) (description : Option String) (defaultValue : Option JsonVal)
      (children : Option (List RouteRequestParam)) (enumValues : Option (List String))

def RouteRequestParam.name : RouteRequestParam → String
  | .mk n _ _ _ _ _ _ _ _ => n

def RouteRequestParam.type : RouteRequestParam → ParamType
  | .mk _ t _ _ _ _ _ _ _ => t

def RouteRequestParam.required : RouteRequestParam → Bool
  | .mk _ _ r _ _ _ _ _ _ => r

def RouteRequestParam.rules : RouteRequestParam → List String
  | .mk _ _ _ rs _ _ _ _ _ => rs

def RouteRequestParam.isPathParam : RouteRequestParam → Bool
  | .mk _ _ _ _ p _ _ _ _ => p

def RouteRequestParam.description : RouteRequestParam → Option String
  | .mk _ _ _ _ _ d _ _ _ => d

def RouteRequestParam.defaultValue : RouteRequestParam → Option JsonVal
  | .mk _ _ _ _ _ _ v _ _ => v

def RouteRequestParam.children : RouteRequestParam → Option (List RouteRequestParam)
  | .mk _ _ _ _ _ _ _ c _ => c

def RouteRequestParam.enumValues : RouteRequestParam → Option (List String)
  | .mk _ _ _ _ _ _ _ _ e => e

/-- Assignment `param.type = t` on the record model. -/
def RouteRequestParam.setType : RouteRequestParam → ParamType → RouteRequestParam
  | .mk n _ r rs p d v c e, t => .mk n t r rs p d v c e

/-- Assignment `param.children = cs` on the record model. -/
def RouteRequestParam.setChildren : RouteRequestParam → Option (List RouteRequestParam) → RouteRequestParam
  | .mk n t r rs p d v _ e, c => .mk n t r rs p d v c e

/-- The string literal of the `ParamType` union member, as it appears in the
TypeScript source. -/
def paramTypeName : ParamType → String
  | ParamType.string => "string"
  | ParamType.integer => "integer"
  | ParamType.number => "number"
  | ParamType.boolean => "boolean"
  | ParamType.array => "array"
  | ParamType.object => "object"
  | ParamType.file => "file"
  | ParamType.date => "date"
  | ParamType.email => "email"
  | ParamType.url => "url"
  | ParamType.uuid => "uuid"

/-- `RouteParser.generateDescription` (parser.ts lines 655-676). -/
def generateDescription (name : String) (rules : List String) : String :=
  let parts : List String := ["Type: " ++ paramTypeName (inferTypeFromRules rules)]
  let parts := rules.foldl (fun ps r =>
    if jsStartsWith r "max:" then ps ++ ["Max: " ++ r.drop 4]
    else if jsStartsWith r "min:" then ps ++ ["Min: " ++ r.drop 4]
    else if jsStartsWith r "size:" then ps ++ ["Size: " ++ r.drop 5]
    else if jsStartsWith r "in:" then ps ++ ["Allowed: " ++ r.drop 3]
    else ps) parts
  String.intercalate ", " parts

/-- `RouteParser.createParam` (parser.ts lines 544-554). -/
def createParam (name : String) (rules : List String) : RouteRequestParam :=
  .mk name (inferTypeFromRules rules) (rules.contains "required") rules false
    (some (generateDescription name rules)) none none (extractEnumValues rules)

/-- Replace the first element whose `name` matches (the JavaScript code
mutates the object found by `params.find`, which is the first match). -/
def replaceFirstByName (params : List RouteRequestParam) (n : String)
    (r : RouteRequestParam) : List RouteRequestParam :=
  match params with
  | [] => []
  | p :: rest => if p.name == n then r :: rest else p :: replaceFirstByName rest n r

/-- `RouteParser.addNestedParam` (parser.ts lines 559-599), as a pure
function from the old `params` list to the new one. -/
def addNestedParam (params : List RouteRequestParam) (fieldPath : String)
    (rules : List String) : List RouteRequestParam :=
  let parts := splitOnChar '.' fieldPath.toList
  let rootName := parts.headD ""
  let found := (params.find? (fun p => p.name == rootName)).isSome
  let rootParam := match params.find? (fun p => p.name == rootName) with
    | some r => r
    | none => .mk rootName .array false [] false none none (some []) none
  let rootParam := if rootParam.children.isNone then rootParam.setChildren (some []) else rootParam
  let rootParam :=
    if parts.getD 1 "" = "*" then
      -- wildcard array notation (items.*.field); note: the type of an
      -- existing root is left unchanged here
      let childName := String.intercalate "." (parts.drop 2)
      if childName ≠ "" then
        let cs := rootParam.children.getD []
        if (cs.find? (fun c => c.name == childName)).isNone then
          rootParam.setChildren (some (cs ++ [createParam childName rules]))
        else rootParam
      else rootParam
    else
      -- nested object notation (user.name)
      let rootParam := rootParam.setType .object
      let childName := String.intercalate "." (parts.drop 1)
      let cs := rootParam.children.getD []
      if (cs.find? (fun c => c.name == childName)).isNone then
        rootParam.setChildren (some (cs ++ [createParam childName rules]))
      else rootParam
  if found then replaceFirstByName params rootName rootParam
  else params ++ [rootParam]

/-- `RouteParser.parseValidationRules` (parser.ts lines 526-539). The rule
record is an ordered association list (JavaScript object insertion order). -/
def parseValidationRules (rules : List (String × List String)) : List RouteRequestParam :=
  rules.foldl (fun params fr =>
    if fr.1.toList.contains '.' then addNestedParam params fr.1 fr.2
    else params ++ [createParam fr.1 fr.2]) []

/-- Match of the regex `\{(\w+)\??}` at exactly position `i`: returns the
parameter name, whether the `?` suffix is present, and the length of the
whole match. -/
def matchPathParamAt (uri : JText) (i : Nat) : Option (String × Bool × Nat) :=
  if uri.get? i = some '{' then
    let run := (uri.drop (i + 1)).takeWhile (fun c => isWordChar c)
    if run.length = 0 then none
    else
      let j := i + 1 + run.length
      if uri.get? j = some '?' ∧ uri.get? (j + 1) = some '}' then
        some (run.asString, true, run.length + 3)
      else if uri.get? j = some '}' then
        some (run.asString, false, run.length + 2)
      else none
  else none

theorem matchPathParamAt_pos {uri : JText} {i : Nat} {n : String} {o : Bool} {len : Nat}
    (h : matchPathParamAt uri i = some (n, o, len)) : 0 < len := by
  simp only [matchPathParamAt] at h
  split at h
  · split at h
    · simp at h
    · split at h
      · simp only [Option.some.injEq, Prod.mk.injEq] at h
        omega
      · split at h
        · simp only [Option.some.injEq, Prod.mk.injEq] at h
          omega
        · simp at h
  · simp at h

/-- The `regex.exec` loop of `RouteParser.extractPathParams`: successive
matches of `/\{(\w+)\??}/g` over the URI, leftmost first, resuming after
each match. -/
def pathParamMatchesGo (uri : JText) : Nat → Nat → List (String × Bool)
  | 0, _ => []
  | Nat.succ fuel, i =>
    if i < uri.length then
      match matchPathParamAt uri i with
      | some (n, o, len) => (n, o) :: pathParamMatchesGo uri fuel (i + len)
      | none => pathParamMatchesGo uri fuel (i + 1)
    else []

def pathParamMatches (uri : JText) (i : Nat) : List (String × Bool) :=
  pathParamMatchesGo uri uri.length i

/-- `RouteParser.extractPathParams` (parser.ts lines 78-98). -/
def extractPathParams (uri : String) : List RouteRequestParam :=
  (pathParamMatches uri.toList 0).map (fun p =>
    RouteRequestParam.mk p.1 .string (!p.2) [] true
      (some ("Path parameter: " ++ p.1)) none none none)

/-! ### Regex machinery

The parser uses a handful of fixed JavaScript regexes. Each is embedded as
an explicit matcher with ECMAScript semantics: leftmost match wins, greedy
pieces backtrack from longest to shortest, lazy pieces grow from shortest. -/

/-- Literal match: the text at position `i` starts with `lit`. -/
def isLitAt (content : JText) (i : Nat) (lit : List Char) : Bool :=
  decide ((content.drop i).take lit.length = lit)

/-- Index after the maximal run of `\s` characters starting at `i`. -/
def skipWs (content : JText) (i : Nat) : Nat :=
  i + ((content.drop i).takeWhile (fun c => isJsSpace c)).length

/-- Length of the maximal run of `\w` characters starting at `i`. -/
def wordRunLen (content : JText) (i : Nat) : Nat :=
  ((content.drop i).takeWhile (fun c => isWordChar c)).length

/-- `\s*\{`: skip whitespace, require `{`; result is the index after it. -/
def finalBrace (content : JText) (j : Nat) : Option Nat :=
  let j1 := skipWs content j
  if content.get? j1 = some '{' then some (j1 + 1) else none

/-- `[^\n]*` of the optional line comment, greedy with backtracking, followed
by `\s*\{`. `len` counts down from the maximal comment length. -/
def commentBacktrack (content : JText) (p : Nat) : Nat → Option Nat
  | 0 => finalBrace content p
  | Nat.succ l =>
    match finalBrace content (p + Nat.succ l) with
    | some e => some e
    | none => commentBacktrack content p l

/-- `\s*(?:\/\/[^\n]*)?\s*\{` at `j` (tail of the primary method regex). -/
def restComment (content : JText) (j : Nat) : Option Nat :=
  let j1 := skipWs content j
  let withComment : Option Nat :=
    if isLitAt content j1 ['/', '/'] then
      commentBacktrack content (j1 + 2)
        ((content.drop (j1 + 2)).takeWhile (fun c => c ≠ '\n')).length
    else none
  match withComment with
  | some e => some e
  | none => finalBrace content j1

/-- `\S+` of the return-type annotation, greedy with backtracking, followed
by `restComment`. `len` counts down from the maximal non-space run. -/
def nonSpaceBacktrack (content : JText) (j2 : Nat) : Nat → Option Nat
  | 0 => none
  | Nat.succ l =>
    match restComment content (j2 + Nat.succ l) with
    | some e => some e
    | none => nonSpaceBacktrack content j2 l

/-- `\s*(?::\s*\S+)?\s*(?:\/\/[^\n]*)?\s*\{` at `j`: everything after the
closing parenthesis in the primary method regex. -/
def tailAfterParen (content : JText) (j : Nat) : Option Nat :=
  let j1 := skipWs content j
  let withColon : Option Nat :=
    if content.get? j1 = some ':' then
      let j2 := skipWs content (j1 + 1)
      nonSpaceBacktrack content j2 ((content.drop j2).takeWhile (fun c => !isJsSpace c)).length
    else none
  match withColon with
  | some e => some e
  | none => restComment content j1

/-- The lazy `([\s\S]*?)\)` piece: find the earliest `)` at or after `p`
whose tail matches, returning the index after the final `{`. -/
def lazyParenTailGo (content : JText) : Nat → Nat → Option Nat
  | 0, _ => none
  | Nat.succ fuel, p =>
    if h : p < content.length then
      if content.get ⟨p, h⟩ = ')' then
        match tailAfterParen content (p + 1) with
        | some e => some e
        | none => lazyParenTailGo content fuel (p + 1)
      else lazyParenTailGo content fuel (p + 1)
    else none

def lazyParenTail (content : JText) (p : Nat) : Option Nat :=
  lazyParenTailGo content content.length p

/-- `\s+function\s+NAME\s*\(` then the lazy paren tail, starting right after
an access modifier at `i`. -/
def matchPrimaryAfterModifier (content : JText) (methodName : JText) (i : Nat) : Option Nat :=
  let j := skipWs content i
  if j = i then none
  else if !isLitAt content j "function".toList then none
  else
    let k := skipWs content (j + 8)
    if k = j + 8 then none
    else if !isLitAt content k methodName then none
    else
      let m := skipWs content (k + methodName.length)
      if content.get? m ≠ some '(' then none
      else lazyParenTail content (m + 1)

/-- The primary regex of `extractMethodContent` (parser.ts lines 184-187),
anchored at `i`:
`(?:public|protected|private)\s+function\s+NAME\s*\(([\s\S]*?)\)\s*(?::\s*\S+)?\s*(?:\/\/[^\n]*)?\s*\{`.
Returns the index one past the matched `{`. -/
def matchPrimaryAt (content : JText) (methodName : JText) (i : Nat) : Option Nat :=
  match (if isLitAt content i "public".toList then
           matchPrimaryAfterModifier content methodName (i + 6) else none) with
  | some e => some e
  | none =>
    match (if isLitAt content i "protected".toList then
             matchPrimaryAfterModifier content methodName (i + 9) else none) with
    | some e => some e
    | none =>
      if isLitAt content i "private".toList then
        matchPrimaryAfterModifier content methodName (i + 7)
      else none

/-- The fallback regex of `extractMethodContent` (parser.ts lines 192-195),
anchored at `i`: `function\s+NAME\s*\([^{]*\{`. Returns the index one past
the matched `{`. -/
def matchFallbackAt (content : JText) (methodName : JText) (i : Nat) : Option Nat :=
  if !isLitAt content i "function".toList then none
  else
    let j := skipWs content (i + 8)
    if j = i + 8 then none
    else if !isLitAt content j methodName then none
    else
      let m := skipWs content (j + methodName.length)
      if content.get? m ≠ some '(' then none
      else
        let run := ((content.drop (m + 1)).takeWhile (fun c => c ≠ '{')).length
        if content.get? (m + 1 + run) = some '{' then some (m + 1 + run + 1) else none

/-- `regex.exec` driver: the leftmost position at which the anchored matcher
succeeds, with the match end. -/
def execLoopGo (content : JText) (matchAt : JText → Nat → Option Nat) :
    Nat → Nat → Option (Nat × Nat)
  | 0, _ => none
  | Nat.succ fuel, i =>
    if i < content.length then
      match matchAt content i with
      | some e => some (i, e)
      | none => execLoopGo content matchAt fuel (i + 1)
    else none

def execLoop (content : JText) (matchAt : JText → Nat → Option Nat) (i : Nat) :
    Option (Nat × Nat) :=
  execLoopGo content matchAt content.length i

/-- `RouteParser.extractMethodContent` (parser.ts lines 181-235): primary
regex, else fallback regex, then brace counting from the match end. When the
braces never balance the loop stops at end-of-text and the truncated text is
still returned (no `null` in that case, unlike `extractBracketedContent`). -/
def extractMethodContent (classContent : JText) (methodName : String) : Option JText :=
  match execLoop classContent (fun c i => matchPrimaryAt c methodName.toList i) 0 with
  | some (idx, matchEnd) =>
    let r := braceScanLoop classContent 1 matchEnd
    some ((classContent.take r.2).drop idx)
  | none =>
    match execLoop classContent (fun c i => matchFallbackAt c methodName.toList i) 0 with
    | some (idx, matchEnd) =>
      let r := braceScanLoop classContent 1 matchEnd
      some ((classContent.take r.2).drop idx)
    | none => none

/-- The signature regex of `findFormRequestInjection` (parser.ts lines
242-245), anchored at `i`: `function\s+NAME\s*\(([^)]*)\)`. Returns the
captured parameter-list text and the match end. -/
def matchSignatureAt (content : JText) (methodName : JText) (i : Nat) : Option (JText × Nat) :=
  if !isLitAt content i "function".toList then none
  else
    let j := skipWs content (i + 8)
    if j = i + 8 then none
    else if !isLitAt content j methodName then none
    else
      let m := skipWs content (j + methodName.length)
      if content.get? m ≠ some '(' then none
      else
        let run := (content.drop (m + 1)).takeWhile (fun c => c ≠ ')')
        if content.get? (m + 1 + run.length) = some ')' then some (run, m + 1 + run.length + 1)
        else none

/-- `regex.exec` driver for `matchSignatureAt`. -/
def execSignatureGo (content : JText) (methodName : JText) : Nat → Nat → Option (JText × Nat)
  | 0, _ => none
  | Nat.succ fuel, i =>
    if i < content.length then
      match matchSignatureAt content methodName i with
      | some r => some r
      | none => execSignatureGo content methodName fuel (i + 1)
    else none

def execSignatureLoop (content : JText) (methodName : JText) (i : Nat) : Option (JText × Nat) :=
  execSignatureGo content methodName content.length i

/-- The backtracking `\w+` of `/(\w+Request)\s+\$\w+/` at start `i`: try
lengths from the maximal word run down to 1; on success return the capture
`\w+Request`. -/
def formRequestBacktrack (params : JText) (i : Nat) : Nat → Option JText
  | 0 => none
  | Nat.succ l =>
    let L := Nat.succ l
    if isLitAt params (i + L) "Request".toList then
      let after := i + L + 7
      let k := skipWs params after
      if k > after ∧ params.get? k = some '$' ∧ wordRunLen params (k + 1) ≥ 1 then
        some ((params.take (i + L + 7)).drop i)
      else formRequestBacktrack params i l
    else formRequestBacktrack params i l

/-- `regex.exec` of `/(\w+Request)\s+\$\w+/g` over the parameter list:
leftmost match of a word run ending in `Request` followed by whitespace and
a `$`-variable; returns the capture group. -/
def execFormRequestGo (params : JText) : Nat → Nat → Option JText
  | 0, _ => none
  | Nat.succ fuel, i =>
    if i < params.length then
      match formRequestBacktrack params i (wordRunLen params i) with
      | some g => some g
      | none => execFormRequestGo params fuel (i + 1)
    else none

def execFormRequestRegex (params : JText) (i : Nat) : Option JText :=
  execFormRequestGo params params.length i

/-- `RouteParser.findFormRequestInjection` (parser.ts lines 240-267). -/
def findFormRequestInjection (classContent : JText) (methodName : String) : Option String :=
  match execSignatureLoop classContent methodName.toList 0 with
  | some (params, _) =>
    match execFormRequestRegex params 0 with
    | some g => if g.asString ≠ "Request" then some g.asString else none
    | none => none
  | none => none

/-! ### Rule-array parsing (`parseRulesArray`) -/

/-- JavaScript object-key assignment `m[k] = v`: overwrite in place if the
key exists, else append (insertion order is preserved). -/
def recordSet {α : Type} (m : List (String × α)) (k : String) (v : α) : List (String × α) :=
  match m with
  | [] => [(k, v)]
  | (k', v') :: rest => if k' == k then (k, v) :: rest else (k', v') :: recordSet rest k v

/-- The field regex `/['"]([^'"]+)['"]\s*=>/` of `parseRulesArray`
(parser.ts line 426), anchored at `i`: returns the captured field name and
the match end. -/
def matchFieldAt (content : JText) (i : Nat) : Option (JText × Nat) :=
  match content.get? i with
  | some q =>
    if q = '\'' ∨ q = '"' then
      let run := (content.drop (i + 1)).takeWhile (fun c => c ≠ '\'' ∧ c ≠ '"')
      if run.length = 0 then none
      else
        let j := i + 1 + run.length
        match content.get? j with
        | some q2 =>
          if q2 = '\'' ∨ q2 = '"' then
            let k := skipWs content (j + 1)
            if isLitAt content k "=>".toList then some (run, k + 2) else none
          else none
        | none => none
    else none
  | none => none

theorem matchFieldAt_gt {content : JText} {i : Nat} {n : JText} {e : Nat}
    (h : matchFieldAt content i = some (n, e)) : i < e := by
  simp only [matchFieldAt, skipWs] at h
  split at h
  · split at h
    · split at h
      · simp at h
      · split at h
        · split at h
          · split at h
            · simp only [Option.some.injEq, Prod.mk.injEq] at h
              omega
            · simp at h
          · simp at h
        · simp at h
    · simp at h
  · simp at h

/-- `fieldPattern.exec` resumption: the first field match at or after `p`. -/
def findFieldGo (content : JText) : Nat → Nat → Option (JText × Nat)
  | 0, _ => none
  | Nat.succ fuel, p =>
    if p < content.length then
      match matchFieldAt content p with
      | some r => some r
      | none => findFieldGo content fuel (p + 1)
    else none

def findFieldFrom (content : JText) (p : Nat) : Option (JText × Nat) :=
  findFieldGo content content.length p

/-- Parsing of the value after one `'field' =>` match (parser.ts lines
431-458): whitespace skip, then a bracketed list or a quoted
pipe-delimited string. -/
def fieldRulesAt (arrayContent : JText) (valueStartIndex : Nat) : List String :=
  let valueIndex := skipWs arrayContent valueStartIndex
  if valueIndex ≥ arrayContent.length then []
  else match arrayContent.get? valueIndex with
  | some '[' =>
    match extractBracketedContent arrayContent valueIndex with
    | some bracketContent => parseRulesList bracketContent
    | none => []
  | some q =>
    if q = '\'' ∨ q = '"' then
      -- /^(['"])(.*?)\1/: lazy `.` cannot cross a line terminator
      let run := (arrayContent.drop (valueIndex + 1)).takeWhile
        (fun c => c ≠ q ∧ c ≠ '\n' ∧ c ≠ '\r')
      if arrayContent.get? (valueIndex + 1 + run.length) = some q then
        (splitOnChar '|' run).map (fun r => (jsTrim r.toList).asString)
      else []
    else []
  | none => []

/-- The `fieldPattern` `while` loop of `RouteParser.parseRulesArray`
(parser.ts lines 429-463). -/
def parseRulesArrayGo (arrayContent : JText) :
    Nat → Nat → List (String × List String) → List (String × List String)
  | 0, _, rules => rules
  | Nat.succ fuel, p, rules =>
    match findFieldFrom arrayContent p with
    | some (fieldName, matchEnd) =>
      let fieldRules := fieldRulesAt arrayContent matchEnd
      let rules' := if fieldRules.length > 0 then recordSet rules fieldName.asString fieldRules
                    else rules
      parseRulesArrayGo arrayContent fuel matchEnd rules'
    | none => rules

/-- `RouteParser.parseRulesArray` (parser.ts lines 421-466); each field match
ends strictly after the scan position, so the match count is bounded by the
text length. -/
def parseRulesArray (arrayContent : JText) : List (String × List String) :=
  parseRulesArrayGo arrayContent (arrayContent.length + 1) 0 []

/-! ### Validation-call location (`parseInlineValidation`) -/

/-- The `ValidationSource` tag of `ParsedValidation` (`'inline' | 'form-request'`). -/
inductive ValidationSource where
  | inline | formRequest
deriving DecidableEq, Repr

/-- The `ParsedValidation` interface of `src/types/routes.ts`. -/
structure ParsedValidation where
  source : ValidationSource
  formRequestClass : Option String
  formRequestPath : Option String
  params : List RouteRequestParam

/-- `/\$request->validate\s*\(\s*\[/` anchored at `i`; returns the match end
(the index one past the `[`). -/
def matchValidate1At (content : JText) (i : Nat) : Option Nat :=
  let lit := "$request->validate".toList
  if !isLitAt content i lit then none
  else
    let j := skipWs content (i + lit.length)
    if content.get? j ≠ some '(' then none
    else
      let k := skipWs content (j + 1)
      if content.get? k = some '[' then some (k + 1) else none

/-- `/\$this->validate\s*\(\s*\$request\s*,\s*\[/` anchored at `i`. -/
def matchThisValidateAt (content : JText) (i : Nat) : Option Nat :=
  let lit := "$this->validate".toList
  if !isLitAt content i lit then none
  else
    let j := skipWs content (i + lit.length)
    if content.get? j ≠ some '(' then none
    else
      let k := skipWs content (j + 1)
      if !isLitAt content k "$request".toList then none
      else
        let m := skipWs content (k + 8)
        if content.get? m ≠ some ',' then none
        else
          let n := skipWs content (m + 1)
          if content.get? n = some '[' then some (n + 1) else none

/-- `/Validator::make\s*\([^[]*\[/` anchored at `i`. -/
def matchValidatorMakeAt (content : JText) (i : Nat) : Option Nat :=
  let lit := "Validator::make".toList
  if !isLitAt content i lit then none
  else
    let j := skipWs content (i + lit.length)
    if content.get? j ≠ some '(' then none
    else
      let run := ((content.drop (j + 1)).takeWhile (fun c => c ≠ '[')).length
      if content.get? (j + 1 + run) = some '[' then some (j + 1 + run + 1) else none

/-- `/request\(\)->validate\s*\(\s*\[/` anchored at `i`. -/
def matchRequestFnValidateAt (content : JText) (i : Nat) : Option Nat :=
  let lit := "request()->validate".toList
  if !isLitAt content i lit then none
  else
    let j := skipWs content (i + lit.length)
    if content.get? j ≠ some '(' then none
    else
      let k := skipWs content (j + 1)
      if content.get? k = some '[' then some (k + 1) else none

/-- `/Request::validate\s*\(\s*\[/` anchored at `i`. -/
def matchStaticRequestValidateAt (content : JText) (i : Nat) : Option Nat :=
  let lit := "Request::validate".toList
  if !isLitAt content i lit then none
  else
    let j := skipWs content (i + lit.length)
    if content.get? j ≠ some '(' then none
    else
      let k := skipWs content (j + 1)
      if content.get? k = some '[' then some (k + 1) else none

/-- `/\$request->validateWithBag\s*\([^,]+,\s*\[/` anchored at `i`. -/
def matchValidateWithBagAt (content : JText) (i : Nat) : Option Nat :=
  let lit := "$request->validateWithBag".toList
  if !isLitAt content i lit then none
  else
    let j := skipWs content (i + lit.length)
    if content.get? j ≠ some '(' then none
    else
      let run := ((content.drop (j + 1)).takeWhile (fun c => c ≠ ',')).length
      if run = 0 then none
      else if content.get? (j + 1 + run) ≠ some ',' then none
      else
        let k := skipWs content (j + 1 + run + 1)
        if content.get? k = some '[' then some (k + 1) else none

/-- `/Validator::validate\s*\([^[]*\[/` anchored at `i`. -/
def matchValidatorValidateAt (content : JText) (i : Nat) : Option Nat :=
  let lit := "Validator::validate".toList
  if !isLitAt content i lit then none
  else
    let j := skipWs content (i + lit.length)
    if content.get? j ≠ some '(' then none
    else
      let run := ((content.drop (j + 1)).takeWhile (fun c => c ≠ '[')).length
      if content.get? (j + 1 + run) = some '[' then some (j + 1 + run + 1) else none

/-- The `validationStarts` pattern list (parser.ts lines 354-362), in source
order. -/
def validationStarts : List (JText → Nat → Option Nat) :=
  [matchValidate1At, matchThisValidateAt, matchValidatorMakeAt, matchRequestFnValidateAt,
   matchStaticRequestValidateAt, matchValidateWithBagAt, matchValidatorValidateAt]

/-- The `for (const startPattern of validationStarts)` loop of
`parseInlineValidation` (parser.ts lines 364-384). An empty extracted array
is falsy in JavaScript, hence the explicit `≠ []` test. -/
def parseInlineValidationGo (methodContent : JText) :
    List (JText → Nat → Option Nat) → Option ParsedValidation
  | [] => none
  | pat :: rest =>
    match execLoop methodContent pat 0 with
    | some (_, matchEnd) =>
      let arrayStartIndex := matchEnd - 1
      match extractBracketedContent methodContent arrayStartIndex with
      | some arrayContent =>
        if arrayContent ≠ [] then
          let rules := parseRulesArray arrayContent
          if rules.length > 0 then
            some ⟨.inline, none, none, parseValidationRules rules⟩
          else parseInlineValidationGo methodContent rest
        else parseInlineValidationGo methodContent rest
      | none => parseInlineValidationGo methodContent rest
    | none => parseInlineValidationGo methodContent rest

/-- `RouteParser.parseInlineValidation` (parser.ts lines 352-387). -/
def parseInlineValidation (methodContent : JText) : Option ParsedValidation :=
  parseInlineValidationGo methodContent validationStarts

/-! ### Form Request resolution and the per-route pipeline -/

/-- The lazy `([\s\S]*?)\];` piece of `/return\s*\[([\s\S]*?)\];/m`: the
earliest `];` at or after `p`, capturing from `start`. -/
def lazyCloseSemiGo (content : JText) (start : Nat) : Nat → Nat → Option JText
  | 0, _ => none
  | Nat.succ fuel, p =>
    if h : p < content.length then
      if content.get ⟨p, h⟩ = ']' ∧ content.get? (p + 1) = some ';' then
        some ((content.take p).drop start)
      else lazyCloseSemiGo content start fuel (p + 1)
    else none

def lazyCloseSemi (content : JText) (start p : Nat) : Option JText :=
  lazyCloseSemiGo content start content.length p

/-- `/return\s*\[([\s\S]*?)\];/` anchored at `i`; returns the capture. -/
def matchReturnArrayAt (content : JText) (i : Nat) : Option JText :=
  if !isLitAt content i "return".toList then none
  else
    let j := skipWs content (i + 6)
    if content.get? j ≠ some '[' then none
    else lazyCloseSemi content (j + 1) (j + 1)

/-- `regex.exec` driver for `matchReturnArrayAt`. -/
def execReturnGo (content : JText) : Nat → Nat → Option JText
  | 0, _ => none
  | Nat.succ fuel, i =>
    if i < content.length then
      match matchReturnArrayAt content i with
      | some g => some g
      | none => execReturnGo content fuel (i + 1)
    else none

def execReturnLoop (content : JText) (i : Nat) : Option JText :=
  execReturnGo content content.length i

/-- `RouteParser.extractRulesFromFormRequest` (parser.ts lines 330-347). -/
def extractRulesFromFormRequest (content : JText) : List (String × List String) :=
  match extractMethodContent content "rules" with
  | none => []
  | some rulesMethod =>
    match execReturnLoop rulesMethod 0 with
    | some rulesArray => parseRulesArray rulesArray
    | none => []

/-- The file system and workspace search seen by the parser: a path → text
map (`fs.existsSync` / `fs.readFileSync` consult the same map) and the
result list of `vscode.workspace.findFiles` for a given glob pattern. In a
well-formed world every glob result is a key of `files`. -/
structure World where
  files : List (String × String)
  requestsGlob : String → List String

/-- `fs.readFileSync` (and, via `isSome`, `fs.existsSync`). -/
def World.readFile (w : World) (p : String) : Option String :=
  (w.files.find? (fun f => f.1 == p)).map Prod.snd

/-- `path.join` for the workspace-relative paths the parser builds. -/
def pathJoin (a b : String) : String := a ++ "/" ++ b

/-- The mutable state of one `RouteParser` instance: the workspace path and
the `formRequestCache` map (class name → `ParsedValidation | null`). -/
structure RouteParserState where
  workspacePath : String
  formRequestCache : List (String × Option ParsedValidation)

/-- The `RouteParser` constructor (parser.ts lines 20-22): a fresh instance
has an empty cache. -/
def RouteParserState.new (workspacePath : String) : RouteParserState :=
  ⟨workspacePath, []⟩

/-- `RouteParser.parseFormRequest` (parser.ts lines 272-325). Returns the
result, the updated state, and the number of file-system/search operations
performed (`existsSync`, `readFileSync`, `findFiles`). -/
def parseFormRequest (w : World) (st : RouteParserState) (formRequestClass : String) :
    Option ParsedValidation × RouteParserState × Nat :=
  match st.formRequestCache.find? (fun e => e.1 == formRequestClass) with
  | some entry => (entry.2, st, 0)
  | none =>
    let directPath := pathJoin st.workspacePath ("app/Http/Requests/" ++ formRequestClass ++ ".php")
    match w.readFile directPath with
    | some content =>
      let rules := extractRulesFromFormRequest content.toList
      let result : ParsedValidation :=
        ⟨.formRequest, some formRequestClass, some directPath, parseValidationRules rules⟩
      (some result,
       { st with formRequestCache := recordSet st.formRequestCache formRequestClass (some result) },
       2)
    | none =>
      match w.requestsGlob ("**/Http/Requests/**/" ++ formRequestClass ++ ".php") with
      | fp :: _ =>
        let content := ((w.readFile fp).getD "").toList
        let rules := extractRulesFromFormRequest content
        let result : ParsedValidation :=
          ⟨.formRequest, some formRequestClass, some fp, parseValidationRules rules⟩
        (some result,
         { st with formRequestCache := recordSet st.formRequestCache formRequestClass (some result) },
         3)
      | [] =>
        (none,
         { st with formRequestCache := recordSet st.formRequestCache formRequestClass none },
         2)

/-- `RouteParser.parseControllerValidation` (parser.ts lines 133-176). -/
def parseControllerValidation (w : World) (st : RouteParserState)
    (controllerPath methodName : String) : Option ParsedValidation × RouteParserState :=
  match w.readFile controllerPath with
  | none => (none, st)
  | some content =>
    let contentL := content.toList
    match extractMethodContent contentL methodName with
    | none => (none, st)
    | some methodContent =>
      match findFormRequestInjection contentL methodName with
      | some formRequestMatch =>
        let r := parseFormRequest w st formRequestMatch
        (r.1, r.2.1)
      | none =>
        match parseInlineValidation methodContent with
        | some inlineValidation => (some inlineValidation, st)
        | none => (none, st)

/-- Index of the last occurrence of `c` (JavaScript `lastIndexOf`). -/
def lastIndexOfChar (s : JText) (c : Char) : Option Nat :=
  (s.reverse.findIdx? (fun x => x == c)).map (fun k => s.length - 1 - k)

/-- `RouteParser.parseControllerString` (parser.ts lines 103-128). The
source's `| null` return type is never exercised (the function always
returns an object). -/
def parseControllerString (workspacePath : String) (controllerString : String) :
    String × String :=
  let cl := controllerString.toList
  let (className, method) :=
    match lastIndexOfChar cl '@' with
    | none => (cl, "__invoke".toList)
    | some atIndex => (cl.take atIndex, cl.drop (atIndex + 1))
  let slashed := className.map (fun c => if c = '\\' then '/' else c)
  let relativePath :=
    (if slashed.take 4 = "App/".toList then "app/".toList ++ slashed.drop 4 else slashed).asString
      ++ ".php"
  (pathJoin workspacePath relativePath, method.asString)

/-- The `LaravelRoute` interface of `src/types/routes.ts`. -/
structure LaravelRoute where
  method : String
  uri : String
  name : Option String
  action : String
  controller : Option String
  middleware : List String
  requestParams : Option (List RouteRequestParam) := none
  formRequestClass : Option String := none
  controllerPath : Option String := none
  controllerMethod : Option String := none

/-- `RouteParser.parseRoute` (parser.ts lines 42-73). `route.controller` is
tested for JavaScript truthiness, so an empty string behaves like `null`. -/
def parseRoute (w : World) (st : RouteParserState) (route : LaravelRoute) :
    LaravelRoute × RouteParserState :=
  let pathParams := extractPathParams route.uri
  match route.controller with
  | some c =>
    if c ≠ "" then
      let info := parseControllerString st.workspacePath c
      let r := parseControllerValidation w st info.1 info.2
      match r.1 with
      | some validation =>
        ({ route with controllerPath := some info.1, controllerMethod := some info.2,
                      requestParams := some (pathParams ++ validation.params),
                      formRequestClass := validation.formRequestClass }, r.2)
      | none =>
        ({ route with controllerPath := some info.1, controllerMethod := some info.2,
                      requestParams := some pathParams }, r.2)
    else ({ route with requestParams := some pathParams }, st)
  | none => ({ route with requestParams := some pathParams }, st)

/-- `RouteParser.parseAllRoutes` (parser.ts lines 27-37), with the route list
passed explicitly in place of the route storage: every route is parsed, in
order, threading the parser state (and its cache) through the pass. -/
def parseAllRoutes (w : World) (st : RouteParserState) (routes : List LaravelRoute) :
    List LaravelRoute × RouteParserState :=
  routes.foldl (fun acc r =>
    let pr := parseRoute w acc.2 r
    (acc.1 ++ [pr.1], pr.2)) ([], st)

/-! ### Request-config builders and default-value synthesis

`new Date().toISOString().split('T')[0]` is impure; both modules receive the
current date as the explicit argument `today`. -/

/-- The `contentType` union of `RouteRequestConfig`. -/
inductive ContentType where
  | json | multipartFormData | urlencoded
deriving DecidableEq, Repr

def ContentType.text : ContentType → String
  | .json => "application/json"
  | .multipartFormData => "multipart/form-data"
  | .urlencoded => "application/x-www-form-urlencoded"

/-- The `RouteRequestConfig` interface of `src/types/routes.ts`. String-keyed
records are insertion-ordered association lists. -/
structure RouteRequestConfig where
  route : LaravelRoute
  url : String
  method : String
  headers : List (String × String)
  queryParams : List (String × String)
  bodyParams : List (String × JsonVal)
  pathParams : List (String × String)
  contentType : ContentType

/-- `.replace(/\/$/, '')`: remove one trailing slash. -/
def stripTrailingSlash (s : JText) : JText :=
  match s.getLast? with
  | some '/' => s.dropLast
  | _ => s

/-- `.replace(/^\//, '')`: remove one leading slash. -/
def stripLeadingSlash : JText → JText
  | '/' :: rest => rest
  | s => s

/-- First index at or after `i` where `sub` occurs in `s`. -/
def findSubIdxGo (s sub : JText) : Nat → Nat → Option Nat
  | 0, _ => none
  | Nat.succ fuel, i =>
    if i < s.length then
      if isLitAt s i sub then some i else findSubIdxGo s sub fuel (i + 1)
    else none

def findSubIdx (s sub : JText) (i : Nat) : Option Nat :=
  findSubIdxGo s sub s.length i

/-- `String.prototype.replace` with a plain-string pattern: replace the
first occurrence only. -/
def jsReplaceFirst (s sub repl : JText) : JText :=
  match findSubIdx s sub 0 with
  | some i => s.take i ++ repl ++ s.drop (i + sub.length)
  | none => s

/-- `.replace(/\/+/g, '/')`: collapse every run of slashes to one. -/
def collapseSlashes : JText → JText
  | [] => []
  | [c] => [c]
  | c1 :: c2 :: rest =>
    if c1 = '/' ∧ c2 = '/' then collapseSlashes (c2 :: rest)
    else c1 :: collapseSlashes (c2 :: rest)

/-- The literal `match[0]` text of one `/\{(\w+)\??}/` match. -/
def pathParamMatchText (m : String × Bool) : JText :=
  '{' :: m.1.toList ++ (if m.2 then ['?', '}'] else ['}'])

/-- The file-level `getDefaultValueForType` of parser.ts (lines 750-775);
`0.0` for `number` is the JavaScript number `0`. -/
def getDefaultValueForType (today : String) : ParamType → JsonVal
  | .integer => .numV 0
  | .number => .numV 0
  | .boolean => .boolV false
  | .array => .arrV []
  | .object => .objV []
  | .date => .strV today
  | .email => .strV "user@example.com"
  | .url => .strV "https://example.com"
  | .uuid => .strV "00000000-0000-0000-0000-000000000000"
  | .file => .nullV
  | .string => .strV ""

/-- The body of the `for (const param of route.requestParams)` loop of
`generateRequestConfig` (parser.ts lines 719-729), acting on the
`(queryParams, bodyParams)` accumulator. -/
def generateParamStep (today method : String)
    (acc : List (String × String) × List (String × JsonVal))
    (param : RouteRequestParam) : List (String × String) × List (String × JsonVal) :=
  if param.isPathParam then acc
  else if method = "GET" ∨ method = "HEAD" then (acc.1 ++ [(param.name, "")], acc.2)
  else (acc.1, recordSet acc.2 param.name (getDefaultValueForType today param.type))

/-- `generateRequestConfig` of parser.ts (lines 682-745). -/
def generateRequestConfig (today : String) (route : LaravelRoute) (baseUrl : String)
    (pathParamValues : List (String × String)) : RouteRequestConfig :=
  let url0 := stripTrailingSlash baseUrl.toList ++ '/' :: stripLeadingSlash route.uri.toList
  let pms := pathParamMatches route.uri.toList 0
  let pu := pms.foldl (fun (acc : List (String × String) × JText) m =>
    let paramName := m.1
    let value := match (pathParamValues.find? (fun e => e.1 == paramName)).map Prod.snd with
      | some v => if v ≠ "" then v else "\x7b" ++ paramName ++ "\x7d"
      | none => "\x7b" ++ paramName ++ "\x7d"
    (recordSet acc.1 paramName value, jsReplaceFirst acc.2 (pathParamMatchText m) value.toList))
    ([], url0)
  let method := jsToUpper ((splitOnChar '|' route.method.toList).headD "")
  let ctqb :=
    match route.requestParams with
    | none => (ContentType.json, ([] : List (String × String)), ([] : List (String × JsonVal)))
    | some ps =>
      let ct := if ps.any (fun p => p.type = ParamType.file) then ContentType.multipartFormData
                else ContentType.json
      let qb := ps.foldl (generateParamStep today method) ([], [])
      (ct, qb.1, qb.2)
  { route := route, url := pu.2.asString, method := method,
    headers := [("Accept", "application/json"), ("Content-Type", ctqb.1.text)],
    queryParams := ctqb.2.1, bodyParams := ctqb.2.2, pathParams := pu.1, contentType := ctqb.1 }

namespace ApiRequest

/-- The `RequestOptions` interface consumed by request.ts. -/
structure RequestOptions where
  host : Option String := none
  headers : List (String × String) := []
  pathParams : List (String × String) := []
  queryParams : Option (List (String × String)) := none
  bodyParams : List (String × JsonVal) := []
  timeout : Option Nat := none
  bearerToken : Option String := none
  disabledParams : Option (List String) := none

/-- `getDefaultForParamType` of request.ts (lines 419-444). -/
def getDefaultForParamType (today : String) : ParamType → JsonVal
  | .integer => .numV 1
  | .number => .numV 1
  | .boolean => .boolV true
  | .array => .arrV []
  | .object => .objV []
  | .date => .strV today
  | .email => .strV "user@example.com"
  | .url => .strV "https://example.com"
  | .uuid => .strV "550e8400-e29b-41d4-a716-446655440000"
  | .file => .nullV
  | .string => .strV "string"

mutual

/-- `getDefaultValueForType` of request.ts (lines 388-414): enum first, then
explicit default, then recursion into children, then the per-type default. -/
def getDefaultValueForType (today : String) : RouteRequestParam → JsonVal
  | .mk _ ty _ _ _ _ dv ch ev =>
    match ev with
    | some (e :: _) => .strV e
    | _ =>
      match dv with
      | some v => v
      | none =>
        match ch with
        | some cs =>
          if 0 < cs.length then
            if ty = ParamType.array then .arrV [.objV (childDefaults today cs)]
            else .objV (childDefaults today cs)
          else getDefaultForParamType today ty
        | none => getDefaultForParamType today ty

/-- The `for (const child of param.children)` object-building loop inside
`getDefaultValueForType` (request.ts lines 397-410). -/
def childDefaults (today : String) : List RouteRequestParam → List (String × JsonVal)
  | [] => []
  | c :: rest => (c.name, getDefaultValueForType today c) :: childDefaults today rest

end

/-- The body of the `for (const param of route.requestParams)` loop of
`buildRequestConfig` (request.ts lines 181-204), acting on the
`(queryParams, bodyParams)` accumulator. `disabled` is
`options.disabledParams` (an absent list disables nothing). -/
def buildParamStep (today method : String) (disabled : List String)
    (acc : List (String × String) × List (String × JsonVal))
    (param : RouteRequestParam) : List (String × String) × List (String × JsonVal) :=
  if param.isPathParam then acc
  else if disabled.contains param.name then acc
  else if method = "GET" ∨ method = "HEAD" then
    if (acc.1.find? (fun (e : String × String) => e.1 == param.name)).isSome then acc
    else (acc.1 ++ [(param.name, "")], acc.2)
  else
    if (acc.2.find? (fun (e : String × JsonVal) => e.1 == param.name)).isSome then acc
    else (acc.1, acc.2 ++ [(param.name, getDefaultValueForType today param)])

/-- `buildRequestConfig` of request.ts (lines 131-230). -/
def buildRequestConfig (today : String) (route : LaravelRoute) (host : String)
    (options : RequestOptions) : RouteRequestConfig :=
  let uri0 := stripLeadingSlash route.uri.toList
  let pms := pathParamMatches route.uri.toList 0
  let pu := pms.foldl (fun (acc : List (String × String) × JText) m =>
    let paramName := m.1
    let isOptional := m.2
    match (acc.1.find? (fun e => e.1 == paramName)).map Prod.snd with
    | some v =>
      if v ≠ "" then (acc.1, jsReplaceFirst acc.2 (pathParamMatchText m) v.toList)
      else if !isOptional then
        (recordSet acc.1 paramName ("\x7b" ++ paramName ++ "\x7d"), acc.2)
      else (acc.1, jsReplaceFirst acc.2 (pathParamMatchText m) [])
    | none =>
      if !isOptional then
        (recordSet acc.1 paramName ("\x7b" ++ paramName ++ "\x7d"), acc.2)
      else (acc.1, jsReplaceFirst acc.2 (pathParamMatchText m) []))
    (options.pathParams, uri0)
  let uri := stripTrailingSlash (collapseSlashes pu.2)
  let url := (stripTrailingSlash host.toList).asString ++ "/" ++ uri.asString
  let method := jsToUpper ((splitOnChar '|' route.method.toList).headD "")
  let ctqb :=
    match route.requestParams with
    | none => (ContentType.json, options.queryParams.getD [], options.bodyParams)
    | some ps =>
      let ct := if ps.any (fun p => p.type = ParamType.file) then ContentType.multipartFormData
                else ContentType.json
      let qb := ps.foldl (buildParamStep today method (options.disabledParams.getD []))
        (options.queryParams.getD [], options.bodyParams)
      (ct, qb.1, qb.2)
  let headers0 := options.headers.foldl (fun hs kv => recordSet hs kv.1 kv.2)
    [("Accept", "application/json")]
  let headers :=
    if method ≠ "GET" ∧ method ≠ "HEAD" ∧ 0 < ctqb.2.2.length then
      if ctqb.1 ≠ ContentType.multipartFormData then recordSet headers0 "Content-Type" ctqb.1.text
      else headers0
    else headers0
  { route := route, url := url, method := method, headers := headers,
    queryParams := ctqb.2.1, bodyParams := ctqb.2.2, pathParams := pu.1, contentType := ctqb.1 }

end ApiRequest

/-! ## Spec-side definitions and concrete instances used by the claim theorems -/

/-- The precedence chain of the amended C3 claim, written from the corrected
spec wording: integer > numeric > boolean > array > file-like > date >
email > url > uuid > json-as-object > default string, over the normalized
rule-name set. It is compared against the source's `inferTypeFromRules`. -/
def inferTypePrecedenceSpec (rules : List String) : ParamType :=
  if ruleSetHas rules "integer" then .integer
  else if ruleSetHas rules "numeric" || ruleSetHas rules "decimal" then .number
  else if ruleSetHas rules "boolean" || ruleSetHas rules "bool" then .boolean
  else if ruleSetHas rules "array" then .array
  else if ruleSetHas rules "file" || ruleSetHas rules "image" || ruleSetHas rules "mimes" || ruleSetHas rules "mimetypes" then .file
  else if ruleSetHas rules "date" || ruleSetHas rules "date_format" || ruleSetHas rules "after" || ruleSetHas rules "before" then .date
  else if ruleSetHas rules "email" then .email
  else if ruleSetHas rules "url" || ruleSetHas rules "active_url" then .url
  else if ruleSetHas rules "uuid" then .uuid
  else if ruleSetHas rules "json" then .object
  else .string

/-- A controller source in which the method `both` carries a Form Request
type-hint and an inline `$request->validate` call at the same time. -/
def C1controller : String :=
  "<?php class C \x7b public function both(StoreUserRequest $request) \x7b $d = $request->validate(['title' => 'required']); \x7d \x7d"

/-- The Form Request class hinted at by `C1controller`. -/
def C1frFile : String :=
  "<?php class StoreUserRequest \x7b public function rules() \x7b return ['age' => 'required|integer']; \x7d \x7d"

/-- A workspace containing `C1controller` and its Form Request at the
conventional direct path. -/
def C1world : World :=
  ⟨[("/ws/C.php", C1controller),
    ("/ws/app/Http/Requests/StoreUserRequest.php", C1frFile)], fun _ => []⟩

/-- An empty workspace: every controller file lookup fails. -/
def C5world : World := ⟨[], fun _ => []⟩

/-- A route whose controller file does not exist in `C5world`. -/
def C5route : LaravelRoute :=
  { method := "POST", uri := "/api/users/\x7buser\x7d", name := none, action := "",
    controller := some "App\\Http\\Controllers\\C@store", middleware := [] }

/-- An empty workspace for the cache claim: resolving any class fails (and
the failure is cached). -/
def C6world : World := ⟨[], fun _ => []⟩

/-- A controller with a plain inline validation call and no Form Request. -/
def C9controller : String :=
  "<?php class C \x7b public function store(Request $request) \x7b $validated = $request->validate(['name' => 'required']); \x7d \x7d"

def C9world : World := ⟨[("/ws/app/C.php", C9controller)], fun _ => []⟩

/-- A route with a required and an optional path parameter whose controller
method declares one body field. -/
def C9route : LaravelRoute :=
  { method := "POST", uri := "/api/users/\x7buser\x7d/posts/\x7bpost?\x7d", name := none,
    action := "", controller := some "App\\C@store", middleware := [] }

/-- The validation that parsing `C9controller`'s `store` method yields. -/
def C9validation : ParsedValidation :=
  ⟨.inline, none, none, [createParam "name" ["required"]]⟩

/-- A node on which every branch of the default synthesizer competes: enum
values, an explicit default, and children are all present. -/
def C8param : RouteRequestParam :=
  .mk "status" ParamType.array false ["in:draft,published"] false none
    (some (JsonVal.strV "other"))
    (some [.mk "x" ParamType.string true [] false none none none none])
    (some ["draft", "published", "archived"])

/-- A POST route with one integer body parameter. -/
def C10route : LaravelRoute :=
  { method := "POST", uri := "/api/x", name := none, action := "", controller := none,
    middleware := [],
    requestParams := some [.mk "n" .integer true ["required", "integer"] false none none none none] }

/-- A GET route with two body/query parameters with distinct names. -/
def C10routeGet : LaravelRoute :=
  { method := "GET", uri := "/api/x", name := none, action := "", controller := none,
    middleware := [],
    requestParams := some
      [.mk "n" .integer true ["required", "integer"] false none none none none,
       .mk "q" .string false [] false none none none none] }

/-! ## Helper lemmas -/

theorem childDefaults_eq_map (today : String) (cs : List RouteRequestParam) :
    ApiRequest.childDefaults today cs
      = cs.map (fun c => (c.name, ApiRequest.getDefaultValueForType today c)) := by
  induction cs with
  | nil => rfl
  | cons c rest ih => simp [ApiRequest.childDefaults, ih]

theorem find?_recordSet_self {α : Type} (m : List (String × α)) (k : String) (v : α)
    (h : m.find? (fun e => e.1 == k) = none) :
    (recordSet m k v).find? (fun e => e.1 == k) = some (k, v) := by
  induction m with
  | nil => simp [recordSet]
  | cons e rest ih =>
    obtain ⟨k', v'⟩ := e
    cases hk : (k' == k)
    case true =>
      rw [List.find?_cons] at h
      simp [hk] at h
    case false =>
      have h' : rest.find? (fun e => e.1 == k) = none := by
        rw [List.find?_cons] at h
        simpa [hk] using h
      simp [recordSet, hk, List.find?_cons]
      exact ih h'

theorem parseFormRequest_miss_shape (w : World) (st : RouteParserState) (cls : String)
    (hmiss : st.formRequestCache.find? (fun e => e.1 == cls) = none) :
    ∃ v n, parseFormRequest w st cls
        = (v, ⟨st.workspacePath, recordSet st.formRequestCache cls v⟩, n) ∧ 1 ≤ n := by
  simp only [parseFormRequest, hmiss]
  cases hrf : w.readFile (pathJoin st.workspacePath ("app/Http/Requests/" ++ cls ++ ".php")) with
  | some content => exact ⟨_, 2, rfl, by omega⟩
  | none =>
    cases hg : w.requestsGlob ("**/Http/Requests/**/" ++ cls ++ ".php") with
    | nil => exact ⟨none, 2, rfl, by omega⟩
    | cons fp rest => exact ⟨_, 3, rfl, by omega⟩

theorem parseFormRequest_hit (w : World) (st : RouteParserState) (cls : String)
    (v : Option ParsedValidation)
    (hhit : st.formRequestCache.find? (fun e => e.1 == cls) = some (cls, v)) :
    parseFormRequest w st cls = (v, st, 0) := by
  simp only [parseFormRequest, hhit]

theorem buildParamStep_fst_of_body (today method : String) (q : List (String × String))
    (b : List (String × JsonVal)) (p : RouteRequestParam)
    (hm : ¬(method = "GET" ∨ method = "HEAD")) :
    (ApiRequest.buildParamStep today method [] (q, b) p).1 = q := by
  simp only [ApiRequest.buildParamStep]
  repeat' split
  all_goals first
    | rfl
    | (exact absurd (by assumption) hm)

/-- Core of the C10 equivalence: over non-path parameters with distinct
names that are not yet present in the query accumulator, the two per-param
loop bodies build the same query-parameter list (body accumulators are
irrelevant to it). -/
theorem fold_query_eq (today method : String) :
    ∀ (ps : List RouteRequestParam) (q : List (String × String)) (b1 b2 : List (String × JsonVal)),
      ((ps.filter (fun p => !p.isPathParam)).map RouteRequestParam.name).Nodup →
      (∀ p ∈ ps, p.isPathParam = false → q.find? (fun e => e.1 == p.name) = none) →
      (ps.foldl (generateParamStep today method) (q, b1)).1
        = (ps.foldl (ApiRequest.buildParamStep today method []) (q, b2)).1 := by
  intro ps
  induction ps with
  | nil => intro q b1 b2 _ _; rfl
  | cons p rest ih =>
    intro q b1 b2 hnodup hdisj
    simp only [List.foldl_cons]
    by_cases hp : p.isPathParam
    · have hg : generateParamStep today method (q, b1) p = (q, b1) := by
        simp [generateParamStep, hp]
      have hb : ApiRequest.buildParamStep today method [] (q, b2) p = (q, b2) := by
        simp [ApiRequest.buildParamStep, hp]
      rw [hg, hb]
      apply ih
      · simpa [List.filter_cons, hp] using hnodup
      · intro p' hp' hnp
        exact hdisj p' (List.mem_cons_of_mem _ hp') hnp
    · have hpf : p.isPathParam = false := by simpa using hp
      by_cases hm : method = "GET" ∨ method = "HEAD"
      · have hfind : q.find? (fun e => e.1 == p.name) = none := hdisj p (by simp) hpf
        have hg : generateParamStep today method (q, b1) p = (q ++ [(p.name, "")], b1) := by
          simp [generateParamStep, hpf, hm]
        have hb : ApiRequest.buildParamStep today method [] (q, b2) p
            = (q ++ [(p.name, "")], b2) := by
          simp [ApiRequest.buildParamStep, hpf, hm, hfind]
        rw [hg, hb]
        have hfil : (p :: rest).filter (fun p => !p.isPathParam)
            = p :: rest.filter (fun p => !p.isPathParam) := by
          simp [List.filter_cons, hpf]
        rw [hfil, List.map_cons, List.nodup_cons] at hnodup
        obtain ⟨hnotin, hnodup'⟩ := hnodup
        apply ih _ _ _ hnodup'
        intro p'' hmem hnp
        have hq : q.find? (fun e => e.1 == p''.name) = none :=
          hdisj p'' (List.mem_cons_of_mem _ hmem) hnp
        have hne : (p.name == p''.name) = false := by
          have hmm : p''.name ∈ (rest.filter (fun p => !p.isPathParam)).map RouteRequestParam.name :=
            List.mem_map_of_mem _ (List.mem_filter.mpr ⟨hmem, by simp [hnp]⟩)
          have hne' : p.name ≠ p''.name := fun hcontra => hnotin (hcontra ▸ hmm)
          simpa using hne'
        simp [List.find?_append, hq, hne]
      · have hg : generateParamStep today method (q, b1) p
            = (q, recordSet b1 p.name (getDefaultValueForType today p.type)) := by
          simp [generateParamStep, hpf, hm]
        rw [hg]
        have hsplit : ApiRequest.buildParamStep today method [] (q, b2) p
            = (q, (ApiRequest.buildParamStep today method [] (q, b2) p).2) :=
          Prod.ext (buildParamStep_fst_of_body today method q b2 p hm) rfl
        rw [hsplit]
        have hfil : (p :: rest).filter (fun p => !p.isPathParam)
            = p :: rest.filter (fun p => !p.isPathParam) := by
          simp [List.filter_cons, hpf]
        rw [hfil, List.map_cons, List.nodup_cons] at hnodup
        apply ih _ _ _ hnodup.2
        intro p' hp' hnp
        exact hdisj p' (List.mem_cons_of_mem _ hp') hnp

/-- When no closing bracket ever appears, the bracket count never returns
to zero. -/
theorem bracketScanGo_pos_of_no_close (content : JText) :
    ∀ (fuel count index : Nat), 0 < count →
      (∀ j, index ≤ j → content.get? j ≠ some ']') →
      0 < (bracketScanGo content fuel count index).1 := by
  intro fuel
  induction fuel with
  | zero => intro count index hc _; simpa [bracketScanGo] using hc
  | succ f ih =>
    intro count index hc hnc
    rw [bracketScanGo]
    split
    next h =>
      dsimp only
      apply ih
      · have hget : content.get? index = some (content.get ⟨index, h.2⟩) := List.get?_eq_get h.2
        have hne : content.get ⟨index, h.2⟩ ≠ ']' := by
          intro hcontra
          exact hnc index le_rfl (by rw [hget, hcontra])
        rcases eq_or_ne (content.get ⟨index, h.2⟩) '[' with h1 | h1
        · rw [if_pos h1]
          omega
        · rw [if_neg h1, if_neg hne]
          exact hc
      · intro j hj
        exact hnc j (by omega)
    next => simpa using hc

/-- An unmatched opening bracket (no `]` anywhere after it) makes
`extractBracketedContent` return the `none` sentinel rather than failing. -/
theorem extractBracketedContent_none_of_no_close (content : JText) (startIndex : Nat)
    (hnc : ']' ∉ content.drop (startIndex + 1)) :
    extractBracketedContent content startIndex = none := by
  have hpt : ∀ j, startIndex + 1 ≤ j → content.get? j ≠ some ']' := by
    intro j hj heq
    apply hnc
    have hd : (content.drop (startIndex + 1)).get? (j - (startIndex + 1)) = some ']' := by
      rw [List.get?_drop]
      rw [show startIndex + 1 + (j - (startIndex + 1)) = j by omega]
      exact heq
    exact List.get?_mem hd
  unfold extractBracketedContent
  split
  · rfl
  · have hpos : 0 < (bracketScanLoop content 1 (startIndex + 1)).1 :=
      bracketScanGo_pos_of_no_close content content.length 1 (startIndex + 1) (by omega) hpt
    rw [if_neg (by omega)]

theorem parseControllerValidation_none_of_absent (w : World) (st : RouteParserState)
    (cp m : String) (hread : w.readFile cp = none) :
    (parseControllerValidation w st cp m).1 = none := by
  simp only [parseControllerValidation, hread]

theorem parseControllerValidation_none_of_no_method (w : World) (st : RouteParserState)
    (cp m content : String) (hread : w.readFile cp = some content)
    (hmc : extractMethodContent content.toList m = none) :
    (parseControllerValidation w st cp m).1 = none := by
  simp only [parseControllerValidation, hread, hmc]

theorem parseControllerValidation_none_of_no_validation (w : World) (st : RouteParserState)
    (cp m content : String) (mc : JText) (hread : w.readFile cp = some content)
    (hmc : extractMethodContent content.toList m = some mc)
    (hffr : findFormRequestInjection content.toList m = none)
    (hinl : parseInlineValidation mc = none) :
    (parseControllerValidation w st cp m).1 = none := by
  simp only [parseControllerValidation, hread, hmc, hffr, hinl]

theorem parseRoute_requestParams_of_none (w : World) (st : RouteParserState)
    (route : LaravelRoute) (c : String) (hc : route.controller = some c) (hne : c ≠ "")
    (hval : (parseControllerValidation w st (parseControllerString st.workspacePath c).1
        (parseControllerString st.workspacePath c).2).1 = none) :
    (parseRoute w st route).1.requestParams = some (extractPathParams route.uri) := by
  simp only [parseRoute, hc, if_pos hne, hval]

theorem parseRoute_requestParams_of_some (w : World) (st : RouteParserState)
    (route : LaravelRoute) (c : String) (v : ParsedValidation)
    (hc : route.controller = some c) (hne : c ≠ "")
    (hval : (parseControllerValidation w st (parseControllerString st.workspacePath c).1
        (parseControllerString st.workspacePath c).2).1 = some v) :
    (parseRoute w st route).1.requestParams
      = some (extractPathParams route.uri ++ v.params) := by
  simp only [parseRoute, hc, if_pos hne, hval]

theorem parseAllRoutes_go_length (w : World) :
    ∀ (routes acc : List LaravelRoute) (s : RouteParserState),
      (routes.foldl (fun acc r =>
        let pr := parseRoute w acc.2 r
        (acc.1 ++ [pr.1], pr.2)) (acc, s)).1.length = acc.length + routes.length := by
  intro routes
  induction routes with
  | nil =>
    intro acc s
    simp
  | cons r rest ih =>
    intro acc s
    simp only [List.foldl_cons]
    rw [ih]
    simp
    omega

/-- A bulk pass never drops a route: one parsed route per input route. -/
theorem parseAllRoutes_length (w : World) (st : RouteParserState)
    (routes : List LaravelRoute) :
    (parseAllRoutes w st routes).1.length = routes.length := by
  have h := parseAllRoutes_go_length w routes [] st
  simpa [parseAllRoutes] using h

/-! ## Claim theorems -/

/-- Claim C1, counterexample: in `C1controller` the method `both` carries
both an inline `$request->validate([...])` call (`parseInlineValidation`
succeeds on its body) and a `StoreUserRequest` type-hint, yet
`parseControllerValidation` returns the Form Request source, not the inline
rules — the claim's "inline takes precedence" is false on the code, which
checks the Form Request injection first (parser.ts lines 155-161). -/
theorem C1_counterexample :
    ((extractMethodContent C1controller.toList "both").map
        (fun mc => (parseInlineValidation mc).isSome)) = some true
  ∧ (findFormRequestInjection C1controller.toList "both") = some "StoreUserRequest"
  ∧ ((parseControllerValidation C1world (RouteParserState.new "/ws") "/ws/C.php" "both").1.map
        (fun v => v.source)) = some ValidationSource.formRequest
  ∧ ValidationSource.formRequest ≠ ValidationSource.inline :=
  ⟨rfl, rfl, rfl, by decide⟩

/-- Claim C1, amended: when both an inline validation call and a Form
Request type-hint are structurally present in a controller method, the Form
Request source takes precedence: `parseControllerValidation` returns
exactly the result of `parseFormRequest` for the hinted class and ignores
the inline rules. Exactly one of {inline rules, Form Request rules, none}
is still selected per route, since the function produces a single optional
`ParsedValidation`. -/
theorem C1_theorem (w : World) (st : RouteParserState) (cp m content : String) (mc : JText)
    (cls : String)
    (hread : w.readFile cp = some content)
    (hmc : extractMethodContent content.toList m = some mc)
    (hffr : findFormRequestInjection content.toList m = some cls)
    (hinline : (parseInlineValidation mc).isSome = true) :
    (parseControllerValidation w st cp m).1 = (parseFormRequest w st cls).1 := by
  simp only [parseControllerValidation, hread, hmc, hffr]

/-- Claim C1, witness: the amended theorem applied to `C1world`, where the
method `both` has both validation sources. -/
theorem C1_witness :
    (parseControllerValidation C1world (RouteParserState.new "/ws") "/ws/C.php" "both").1
      = (parseFormRequest C1world (RouteParserState.new "/ws") "StoreUserRequest").1 :=
  C1_theorem C1world (RouteParserState.new "/ws") "/ws/C.php" "both" C1controller
    ((extractMethodContent C1controller.toList "both").getD []) "StoreUserRequest"
    rfl rfl rfl rfl

/-- Claim C2: the balanced-delimiter scans do not suspend depth counting
inside quoted strings, contrary to the claim. At the failing inputs, the
bracket scan closes the array at the `]` inside the quoted string `'a]b'`
(returning `'a` instead of `'a]b'`), and the brace scan ends the method
body at the `}` inside the quoted string. -/
theorem C2_theorem :
    extractBracketedContent "['a]b']".toList 0 = some "'a".toList ∧
    extractMethodContent "public function f() \x7b '\x7d' \x7d".toList "f"
      = some "public function f() \x7b '\x7d".toList := ⟨rfl, rfl⟩

/-- Claim C3, counterexample: the claim's precedence order puts file-like
rules before integer and boolean before numeric, but the code checks
integer/numeric first: `{image, integer}` infers `integer` (the claim says
`file`) and `{boolean, numeric}` infers `number` (the claim says
`boolean`). -/
theorem C3_counterexample :
    inferTypeFromRules ["image", "integer"] = ParamType.integer ∧
    inferTypeFromRules ["image", "integer"] ≠ ParamType.file ∧
    inferTypeFromRules ["boolean", "numeric"] = ParamType.number ∧
    inferTypeFromRules ["boolean", "numeric"] ≠ ParamType.boolean :=
  ⟨rfl, by decide, rfl, by decide⟩

/-- Claim C3, amended: `inferTypeFromRules` is a total function on rule
sets that follows the fixed precedence integer > numeric > boolean > array >
file-like > date > email > url > uuid > json-as-object > default string
(ties resolved by this order, not rule order), and in particular
`{numeric, integer}` maps to `integer`. -/
theorem C3_theorem :
    (∀ rules, inferTypeFromRules rules = inferTypePrecedenceSpec rules) ∧
    inferTypeFromRules ["numeric", "integer"] = ParamType.integer := by
  constructor
  · intro rules
    unfold inferTypeFromRules inferTypePrecedenceSpec
    cases h : ruleSetHas rules "integer" <;> simp [h]
  · rfl

/-- Claim C4: the invariant fails. From the flat rules
`{items: [required], items.*.name: [required, string]}` the schema builder
produces a root node `items` that keeps its leaf type `string` while
receiving a non-empty children list, because the wildcard branch of
`addNestedParam` does not retype an existing root to `array` (unlike the
dotted-object branch, which does retype to `object`). -/
theorem C4_theorem :
    (parseValidationRules [("items", ["required"]), ("items.*.name", ["required", "string"])]).map
      (fun p => (p.name, p.type, (p.children.getD []).map (fun c => (c.name, c.type))))
    = [("items", ParamType.string, [("name", ParamType.string)])] := rfl

/-- Claim C5: per-route failures are isolated. Whenever the controller file
is absent, or the method is not found, or no validation can be obtained
from the method (no Form Request hint and no parseable inline array),
`parseRoute` returns the route with `requestParams` equal to exactly its
path parameters; an unmatched opening bracket makes the scanner return the
`none` sentinel rather than failing; and a bulk pass parses every route
(one output route per input route). -/
theorem C5_theorem (w : World) (st : RouteParserState) (route : LaravelRoute)
    (c : String) (hc : route.controller = some c) (hne : c ≠ "") :
    ((w.readFile (parseControllerString st.workspacePath c).1 = none →
        (parseRoute w st route).1.requestParams = some (extractPathParams route.uri))
  ∧ (∀ content, w.readFile (parseControllerString st.workspacePath c).1 = some content →
        extractMethodContent content.toList (parseControllerString st.workspacePath c).2 = none →
        (parseRoute w st route).1.requestParams = some (extractPathParams route.uri))
  ∧ (∀ content mc, w.readFile (parseControllerString st.workspacePath c).1 = some content →
        extractMethodContent content.toList (parseControllerString st.workspacePath c).2 = some mc →
        findFormRequestInjection content.toList (parseControllerString st.workspacePath c).2 = none →
        parseInlineValidation mc = none →
        (parseRoute w st route).1.requestParams = some (extractPathParams route.uri)))
  ∧ (∀ (content : JText) (startIndex : Nat),
        ']' ∉ content.drop (startIndex + 1) →
        extractBracketedContent content startIndex = none)
  ∧ (∀ routes, (parseAllRoutes w st routes).1.length = routes.length) := by
  refine ⟨⟨?_, ?_, ?_⟩, ?_, ?_⟩
  · intro hread
    exact parseRoute_requestParams_of_none w st route c hc hne
      (parseControllerValidation_none_of_absent w st _ _ hread)
  · intro content hread hmc
    exact parseRoute_requestParams_of_none w st route c hc hne
      (parseControllerValidation_none_of_no_method w st _ _ content hread hmc)
  · intro content mc hread hmc hffr hinl
    exact parseRoute_requestParams_of_none w st route c hc hne
      (parseControllerValidation_none_of_no_validation w st _ _ content mc hread hmc hffr hinl)
  · exact fun content startIndex h => extractBracketedContent_none_of_no_close content startIndex h
  · exact fun routes => parseAllRoutes_length w st routes

/-- Claim C5, witness: in the empty workspace the route degrades to its
path parameters, and a truncated array returns the `none` sentinel. -/
theorem C5_witness :
    (parseRoute C5world (RouteParserState.new "/ws") C5route).1.requestParams
      = some (extractPathParams C5route.uri)
  ∧ extractBracketedContent "[1, 2".toList 0 = none :=
  ⟨(C5_theorem C5world (RouteParserState.new "/ws") C5route "App\\Http\\Controllers\\C@store"
      rfl (by decide)).1.1 rfl,
   (C5_theorem C5world (RouteParserState.new "/ws") C5route "App\\Http\\Controllers\\C@store"
      rfl (by decide)).2.1 "[1, 2".toList 0 (by decide)⟩

/-- Claim C6: when a class is not in the cache, the first resolution does
the file-system/search work (at least one operation) and stores the result
— including a `null` for a failed lookup — and the second resolution of the
same class within the same parser instance is a pure cache hit: same
result, same state, zero file-system operations. A fresh parser instance
starts with an empty cache, so nothing from a previous instance is
reused. -/
theorem C6_theorem (w : World) (st : RouteParserState) (cls wp : String)
    (hmiss : st.formRequestCache.find? (fun e => e.1 == cls) = none) :
    (parseFormRequest w (parseFormRequest w st cls).2.1 cls
       = ((parseFormRequest w st cls).1, (parseFormRequest w st cls).2.1, 0))
  ∧ 1 ≤ (parseFormRequest w st cls).2.2
  ∧ (RouteParserState.new wp).formRequestCache = [] := by
  obtain ⟨v, n, heq, hn⟩ := parseFormRequest_miss_shape w st cls hmiss
  refine ⟨?_, by rw [heq]; exact hn, rfl⟩
  rw [heq]
  exact parseFormRequest_hit w _ cls v (find?_recordSet_self _ cls v hmiss)

/-- Claim C6, witness: in an empty workspace the failed lookup for `X` is
cached and the second resolution is served from the cache with zero
file-system operations. -/
theorem C6_witness :
    (parseFormRequest C6world (parseFormRequest C6world (RouteParserState.new "/ws") "X").2.1 "X"
       = ((parseFormRequest C6world (RouteParserState.new "/ws") "X").1,
          (parseFormRequest C6world (RouteParserState.new "/ws") "X").2.1, 0))
  ∧ 1 ≤ (parseFormRequest C6world (RouteParserState.new "/ws") "X").2.2
  ∧ (RouteParserState.new "/ws").formRequestCache = [] :=
  C6_theorem C6world (RouteParserState.new "/ws") "X" "/ws" rfl

/-- Claim C7: on the spec's bracket rule list with a nested call token,
`[Rule::in(['a','b']), 'required']`, the tokenizer splits only at the
top-level comma and yields exactly two tokens, the first containing the
nested expression `Rule::in(['a','b'])` intact. -/
theorem C7_theorem :
    parseRulesList "Rule::in(['a','b']), 'required'".toList
      = ["Rule::in(['a','b'])", "required"] := rfl

/-- Claim C8: the default-value synthesizer returns the first enum value
whenever `enumValues` is non-empty (taking precedence over the explicit
default, children and the per-type fallback); it is idempotent (the
function is pure, given the fixed `today` date); and for an enum-free,
default-free node with children it builds an object, or a single-element
array when the node's type is `array`, by synthesizing each child. -/
theorem C8_theorem (today : String) (p : RouteRequestParam) :
    (∀ e es, p.enumValues = some (e :: es) →
      ApiRequest.getDefaultValueForType today p = JsonVal.strV e)
  ∧ ApiRequest.getDefaultValueForType today p = ApiRequest.getDefaultValueForType today p
  ∧ (∀ cs, p.enumValues = none → p.defaultValue = none → p.children = some cs → cs ≠ [] →
      ApiRequest.getDefaultValueForType today p =
        (if p.type = ParamType.array
         then JsonVal.arrV [JsonVal.objV (cs.map (fun c =>
                (c.name, ApiRequest.getDefaultValueForType today c)))]
         else JsonVal.objV (cs.map (fun c =>
                (c.name, ApiRequest.getDefaultValueForType today c))))) := by
  obtain ⟨n, ty, rq, rl, ip, d, dv, ch, ev⟩ := p
  refine ⟨?_, rfl, ?_⟩
  · intro e es h
    simp only [RouteRequestParam.enumValues] at h
    subst h
    rfl
  · intro cs hev hdv hch hne
    simp only [RouteRequestParam.enumValues] at hev
    simp only [RouteRequestParam.defaultValue] at hdv
    simp only [RouteRequestParam.children] at hch
    subst hev; subst hdv; subst hch
    have hlen : 0 < cs.length := List.length_pos.mpr hne
    simp only [RouteRequestParam.type, ApiRequest.getDefaultValueForType, hlen, if_true,
      childDefaults_eq_map]

/-- Claim C8, witness: on a node carrying enum values, an explicit default
and children all at once, the synthesizer returns the first enum value. -/
theorem C8_witness :
    ApiRequest.getDefaultValueForType "2026-02-03" C8param = JsonVal.strV "draft" :=
  (C8_theorem ("2026-02-03") C8param).1 "draft" ["published", "archived"] rfl

/-- Claim C9: when validation parsing succeeds, `parseRoute` places the
path parameters first — exactly `extractPathParams` of the URI template, in
template order — followed by the body parameters of the parsed validation
in rule-declaration order; every path parameter is string-typed, flagged
`isPathParam`, rule-free and childless; and the spec's template
`/api/users/{user}/posts/{post?}` yields `user` required and `post`
optional. -/
theorem C9_theorem (w : World) (st : RouteParserState) (route : LaravelRoute)
    (c : String) (v : ParsedValidation)
    (hc : route.controller = some c) (hne : c ≠ "")
    (hval : (parseControllerValidation w st (parseControllerString st.workspacePath c).1
        (parseControllerString st.workspacePath c).2).1 = some v) :
    (parseRoute w st route).1.requestParams
      = some (extractPathParams route.uri ++ v.params)
  ∧ (∀ uri, ∀ p ∈ extractPathParams uri,
      p.type = ParamType.string ∧ p.isPathParam = true ∧ p.rules = [] ∧ p.children = none)
  ∧ extractPathParams "/api/users/\x7buser\x7d/posts/\x7bpost?\x7d"
      = [RouteRequestParam.mk "user" .string true [] true
           (some "Path parameter: user") none none none,
         RouteRequestParam.mk "post" .string false [] true
           (some "Path parameter: post") none none none] := by
  refine ⟨parseRoute_requestParams_of_some w st route c v hc hne hval, ?_, rfl⟩
  intro uri p hp
  simp only [extractPathParams, List.mem_map] at hp
  obtain ⟨m, _, rfl⟩ := hp
  exact ⟨rfl, rfl, rfl, rfl⟩

/-- Claim C9, witness: the theorem applied to a concrete route with a
required and an optional path parameter and one inline body field. -/
theorem C9_witness :
    (parseRoute C9world (RouteParserState.new "/ws") C9route).1.requestParams
      = some (extractPathParams C9route.uri ++ C9validation.params) :=
  (C9_theorem C9world (RouteParserState.new "/ws") C9route "App\\C@store" C9validation rfl
    (by decide) rfl).1

/-- Claim C10, counterexample: for a POST route with one integer parameter
and no overrides, the two builders produce different bodyParams —
parser.ts's `generateRequestConfig` defaults the integer to `0`, while
request.ts's `buildRequestConfig` defaults it to `1`. -/
theorem C10_counterexample :
    (generateRequestConfig "2026-10-11" C10route "http://localhost:8000" []).bodyParams
        = [("n", JsonVal.numV 0)]
  ∧ (ApiRequest.buildRequestConfig "2026-10-11" C10route "http://localhost:8000" {}).bodyParams
        = [("n", JsonVal.numV 1)]
  ∧ JsonVal.numV 0 ≠ JsonVal.numV 1 :=
  ⟨rfl, rfl, fun h => absurd (JsonVal.numV.inj h) (by decide)⟩

/-- Claim C10, amended: with no caller-supplied overrides the two builders
produce the same queryParams for every route whose non-path parameter names
are distinct (in particular the same GET/HEAD query entries, and `[]` for
body methods), but their bodyParams defaults differ in general: parser.ts
derives defaults from the parameter type alone (0 for integer, ignoring
enums, children and explicit defaults) while request.ts uses enum-first
recursive defaults (1 for integer). -/
theorem C10_theorem :
    (∀ (today : String) (route : LaravelRoute) (baseUrl : String),
      (((route.requestParams.getD []).filter (fun p => !p.isPathParam)).map
        RouteRequestParam.name).Nodup →
      (generateRequestConfig today route baseUrl []).queryParams
        = (ApiRequest.buildRequestConfig today route baseUrl {}).queryParams)
  ∧ (generateRequestConfig "2026-10-11" C10route "http://localhost:8000" []).bodyParams
      ≠ (ApiRequest.buildRequestConfig "2026-10-11" C10route "http://localhost:8000" {}).bodyParams := by
  constructor
  · intro today route baseUrl hnodup
    simp only [generateRequestConfig, ApiRequest.buildRequestConfig]
    cases hrp : route.requestParams with
    | none => rfl
    | some ps =>
      rw [hrp] at hnodup
      simp only [Option.getD_some] at hnodup
      simp only [hrp]
      exact fold_query_eq today (jsToUpper ((splitOnChar '|' route.method.toList).headD ""))
        ps [] [] [] hnodup (fun p _ _ => rfl)
  · intro h
    have h2 : ([("n", JsonVal.numV 0)] : List (String × JsonVal)) = [("n", JsonVal.numV 1)] := h
    simp at h2

/-- Claim C10, witness: the amended theorem applied to a GET route with two
distinct parameter names — both builders emit the same query entries. -/
theorem C10_witness :
    (generateRequestConfig "2026-10-11" C10routeGet "http://localhost:8000" []).queryParams
      = (ApiRequest.buildRequestConfig "2026-10-11" C10routeGet "http://localhost:8000" {}).queryParams :=
  C10_theorem.1 "2026-10-11" C10routeGet "http://localhost:8000" (by decide)

end Outbound
